import Mathlib

set_option maxRecDepth 8000

deriving instance DecidableEq for Except

/-!
Shallow embedding of the `rust-modbus-rtu` crate (Modbus RTU protocol library)
together with proofs about its CRC engine, code tables, response decoder,
request encoders, address space and slave packet analyzer.

Bytes are modelled as `Nat` (with `% 256` / `% 65536` where the source's
`u8` / `u16` arithmetic wraps); byte slices are `List Nat`; fallible code
returns `Except` / `Option`; a Rust panic is modelled as `none`.
-/

namespace ModbusRtu

/-! ## CRC engine (`src/utils.rs`, `crc16_modbus`)

The accumulator starts at `0xFFFF`; each input byte is XORed into the low
byte, followed by 8 rounds of shift-right / conditional XOR with `0xA001`.
-/

/-- One shift round of the CRC16 loop: if the low bit is set, shift right and
XOR with `0xA001`, else just shift right. -/
def crcRound (crc : Nat) : Nat :=
  if crc &&& 0x0001 ≠ 0 then (crc >>> 1) ^^^ 0xA001 else crc >>> 1

/-- Process one input byte: XOR it into the accumulator, then 8 rounds. -/
def crcByte (crc b : Nat) : Nat :=
  (List.range 8).foldl (fun c _ => crcRound c) (crc ^^^ b)

/-- `crc16_modbus` accumulator over a byte list, as a 16-bit value. -/
def crc16 (data : List Nat) : Nat :=
  data.foldl crcByte 0xFFFF

/-- `crc16_modbus` from `src/utils.rs`: the CRC as two bytes, low byte first. -/
def crc16_modbus (data : List Nat) : List Nat :=
  [crc16 data % 256, crc16 data / 256]

/-! The crate's `crc` modules (`crate::crc` declared in `src/lib.rs` and
`common::crc` declared in `src/common/mod.rs`) are not present in the
source tree; only their tests (`src/common/crc/test.rs`) and callers are.
They are therefore modelled from the spec (§4.1). -/

/-- Modelled from the spec: the missing `crc` module's `generate` /
`generate_modbus16` "initializes an accumulator to 0xFFFF; for each input
byte, XORs it into the low byte of the accumulator, then performs 8 rounds"
— identical to `crc16_modbus` in `src/utils.rs`, returned as a `u16`. -/
def crcGenerate (data : List Nat) : Nat :=
  crc16 data

/-- Modelled from the spec: the CRC the missing `validate(frame)` recomputes —
"recomputes the CRC over all bytes except the trailing two" of its argument. -/
def crcExpected (frame : List Nat) : Nat :=
  crcGenerate (frame.take (frame.length - 2))

/-- Modelled from the spec: the CRC value `validate(frame)` compares against —
"the trailing two bytes interpreted as little-endian". -/
def crcReceived (frame : List Nat) : Nat :=
  frame.getD (frame.length - 2) 0 + 256 * frame.getD (frame.length - 1) 0

/-! ## Code tables: `Exception` (`src/exception.rs`, `src/common/exception.rs`)

Both files define the same enumeration with the same code tables; a single
inductive serves for both. -/

inductive Exception where
  | undefined (code : Nat)
  | illegalFunction
  | illegalDataAddress
  | illegalDataValue
  | deviceFailure
  | acknowledge
  | deviceBusy
  | memoryParityError
  | gatewayPathUnavailable
  | gatewayTargetDeviceFailedToRespond
  deriving DecidableEq, Repr

/-- `Exception::as_code` from `src/exception.rs`. -/
def Exception.as_code : Exception → Nat
  | .undefined code => code
  | .illegalFunction => 0x01
  | .illegalDataAddress => 0x02
  | .illegalDataValue => 0x03
  | .deviceFailure => 0x04
  | .acknowledge => 0x05
  | .deviceBusy => 0x06
  | .memoryParityError => 0x08
  | .gatewayPathUnavailable => 0x0A
  | .gatewayTargetDeviceFailedToRespond => 0x0B

/-- `Exception::from_code` from `src/exception.rs` (also `From<u8>` in
`src/common/exception.rs`): undefined codes fall through to `Undefined`. -/
def Exception.from_code (code : Nat) : Exception :=
  if code = 0x01 then .illegalFunction
  else if code = 0x02 then .illegalDataAddress
  else if code = 0x03 then .illegalDataValue
  else if code = 0x04 then .deviceFailure
  else if code = 0x05 then .acknowledge
  else if code = 0x06 then .deviceBusy
  else if code = 0x08 then .memoryParityError
  else if code = 0x0A then .gatewayPathUnavailable
  else if code = 0x0B then .gatewayTargetDeviceFailedToRespond
  else .undefined code

/-! ## Code tables: `FunctionKind` (`src/function_kind.rs`) -/

inductive FunctionKind where
  | readCoils
  | readDiscreteInputs
  | readHoldingRegisters
  | readInputRegisters
  | writeSingleCoil
  | writeSingleRegister
  | writeMultipleCoils
  | writeMultipleRegisters
  deriving DecidableEq, Repr

/-- `FunctionKind::as_code`. -/
def FunctionKind.as_code : FunctionKind → Nat
  | .readCoils => 0x01
  | .readDiscreteInputs => 0x02
  | .readHoldingRegisters => 0x03
  | .readInputRegisters => 0x04
  | .writeSingleCoil => 0x05
  | .writeSingleRegister => 0x06
  | .writeMultipleCoils => 0x0F
  | .writeMultipleRegisters => 0x10

/-- `FunctionKind::from_code`: unknown codes have no representation. -/
def FunctionKind.from_code (code : Nat) : Option FunctionKind :=
  if code = 0x01 then some .readCoils
  else if code = 0x02 then some .readDiscreteInputs
  else if code = 0x03 then some .readHoldingRegisters
  else if code = 0x04 then some .readInputRegisters
  else if code = 0x05 then some .writeSingleCoil
  else if code = 0x06 then some .writeSingleRegister
  else if code = 0x0F then some .writeMultipleCoils
  else if code = 0x10 then some .writeMultipleRegisters
  else none

/-! ## `Function` (`src/function.rs`) and `Request` (`src/request.rs`) -/

inductive Function where
  | readCoils (starting_address quantity : Nat)
  | readDiscreteInputs (starting_address quantity : Nat)
  | readHoldingRegisters (starting_address quantity : Nat)
  | readInputRegisters (starting_address quantity : Nat)
  | writeSingleCoil (address : Nat) (value : Bool)
  | writeSingleRegister (address value : Nat)
  | writeMultipleCoils (starting_address : Nat) (value : List Bool)
  | writeMultipleRegisters (starting_address : Nat) (value : List Nat)
  deriving DecidableEq, Repr

/-- `Function::kind`. -/
def Function.kind : Function → FunctionKind
  | .readCoils .. => .readCoils
  | .readDiscreteInputs .. => .readDiscreteInputs
  | .readHoldingRegisters .. => .readHoldingRegisters
  | .readInputRegisters .. => .readInputRegisters
  | .writeSingleCoil .. => .writeSingleCoil
  | .writeSingleRegister .. => .writeSingleRegister
  | .writeMultipleCoils .. => .writeMultipleCoils
  | .writeMultipleRegisters .. => .writeMultipleRegisters

/-- `Request` from `src/request.rs` (the `timeout : Duration` field is kept
as an abstract number; it plays no role in encoding or decoding). -/
structure Request where
  modbus_id : Nat
  function : Function
  timeout : Nat
  deriving DecidableEq, Repr

/-! ## Response decoder (`src/response.rs`) -/

inductive ResponsePacketError where
  | tooShort (len : Nat)
  | crcMismatch (expected received : Nat)
  | unexpectedResponder (id : Nat)
  | invalidFormat
  deriving DecidableEq, Repr

inductive Response where
  | status (values : List Bool)
  | value (values : List Nat)
  | success
  | exception (e : Exception)
  deriving DecidableEq, Repr

/-- The 8 bits of one payload byte, LSB first (`byte & (0b1 << j) != 0`). -/
def byteBits (b : Nat) : List Bool :=
  (List.range 8).map fun j => (b &&& (1 <<< j)) != 0

/-- `Response::from_bytes` from `src/response.rs`.

The source trims the CRC before calling `crate::crc::validate`
(`crc::validate(&bytes[0..(len - 2)])`); `validate` itself is missing from
the tree and is modelled from the spec (§4.1) via `crcExpected` /
`crcReceived` applied to that already-trimmed argument.

After the `function_kind != request.function().kind()` check the source
matches on `function_kind` and reads the request's fields with
`unreachable!()` cross arms; matching directly on `request.function` is the
same total function. Slice reads that the source performs only under the
preceding length guards are rendered with `getD`. `u8` / `u16` casts wrap
(`% 256` / `% 65536`). -/
def Response.from_bytes (request : Request) (bytes : List Nat) :
    Except ResponsePacketError Response :=
  let len := bytes.length
  if len < 5 then .error (.tooShort len) else
  -- crc check (argument already has the trailing two frame bytes removed)
  let arg := bytes.take (len - 2)
  if crcExpected arg ≠ crcReceived arg then
    .error (.crcMismatch (crcExpected arg) (crcReceived arg)) else
  -- exception check
  let function_code := bytes.getD 1 0
  if function_code &&& 0x80 ≠ 0 then
    .ok (.exception (Exception.from_code (bytes.getD 2 0))) else
  -- modbus id check
  if bytes.getD 0 0 ≠ request.modbus_id then
    .error (.unexpectedResponder (bytes.getD 0 0)) else
  -- function code check
  match FunctionKind.from_code function_code with
  | none => .error .invalidFormat
  | some function_kind =>
    if function_kind ≠ request.function.kind then .error .invalidFormat else
    -- trim: packet = bytes[2..len-2]
    let packet := (bytes.drop 2).take (len - 4)
    match request.function with
    | .readCoils _ quantity | .readDiscreteInputs _ quantity =>
      let byte_count := packet.getD 0 0
      if byte_count < (quantity % 256 + 7) % 256 / 8 then .error .invalidFormat else
      if packet.length < byte_count + 1 then .error .invalidFormat else
      .ok (.status (((packet.drop 1).flatMap byteBits).take quantity))
    | .readHoldingRegisters _ quantity | .readInputRegisters _ quantity =>
      let byte_count := packet.getD 0 0
      if byte_count < quantity % 256 * 2 % 256 then .error .invalidFormat else
      if packet.length < byte_count + 1 then .error .invalidFormat else
      .ok (.value ((List.range quantity).map fun i =>
        packet.getD (1 + i * 2) 0 * 256 + packet.getD (2 + i * 2) 0))
    | .writeSingleCoil address v =>
      if packet.length ≠ 4 then .error .invalidFormat else
      let req_value := if v then 0xFF00 else 0x0000
      let res_address := packet.getD 0 0 * 256 + packet.getD 1 0
      let res_value := packet.getD 2 0 * 256 + packet.getD 3 0
      if address ≠ res_address ∨ req_value ≠ res_value then .error .invalidFormat else
      .ok .success
    | .writeSingleRegister address v =>
      if packet.length ≠ 4 then .error .invalidFormat else
      let res_address := packet.getD 0 0 * 256 + packet.getD 1 0
      let res_value := packet.getD 2 0 * 256 + packet.getD 3 0
      if address ≠ res_address ∨ v ≠ res_value then .error .invalidFormat else
      .ok .success
    | .writeMultipleCoils starting_address vs =>
      if packet.length ≠ 4 then .error .invalidFormat else
      let req_quantity := vs.length % 65536
      let res_address := packet.getD 0 0 * 256 + packet.getD 1 0
      let res_quantity := packet.getD 2 0 * 256 + packet.getD 3 0
      if starting_address ≠ res_address ∨ req_quantity ≠ res_quantity then
        .error .invalidFormat else
      .ok .success
    | .writeMultipleRegisters starting_address vs =>
      if packet.length ≠ 4 then .error .invalidFormat else
      let req_quantity := vs.length % 65536
      let res_address := packet.getD 0 0 * 256 + packet.getD 1 0
      let res_quantity := packet.getD 2 0 * 256 + packet.getD 3 0
      if starting_address ≠ res_address ∨ req_quantity ≠ res_quantity then
        .error .invalidFormat else
      .ok .success

/-- `Response::is_success`: `Acknowledge` is the only exception counted as
success. -/
def Response.is_success : Response → Bool
  | .status _ | .value _ | .success => true
  | .exception e => e == Exception.acknowledge

/-! ## Request encoder (`src/function.rs`, `src/request.rs`) -/

/-- `u16::to_be_bytes`: big-endian byte pair of a 16-bit value. -/
def be16 (x : Nat) : List Nat :=
  [x % 65536 / 256, x % 256]

/-- `vec_bool_to_vec_u8` from `src/utils.rs`: pack one chunk of up to 8 bits
into a byte, LSB first (`byte |= 1 << i`). -/
def packBits (chunk : List Bool) : Nat :=
  chunk.enum.foldl (fun byte ib => if ib.2 then byte ||| (1 <<< ib.1) else byte) 0

/-- `vec_bool_to_vec_u8` from `src/utils.rs`: group 8 consecutive booleans per
byte, the final byte zero-padded. The chunk loop inside
`Function::to_bytes`'s Write Multiple Coils arm is the same computation (its
`byte &= !(1 << i)` branch is a no-op on a fresh zero byte). -/
def vec_bool_to_vec_u8 : List Bool → List Nat
  | [] => []
  | b :: rest => packBits ((b :: rest).take 8) :: vec_bool_to_vec_u8 (rest.drop 7)
  termination_by l => l.length
  decreasing_by simp; omega

inductive RequestPacketError where
  | requestTooBig
  | responseWillTooBig
  | cannotBroadcast
  deriving DecidableEq, Repr

/-- `Function::to_bytes` from `src/function.rs` (with the default feature set,
i.e. without `unlimited_packet_size`): the function code followed by the
per-kind payload, or a packet-size error. `as u8` / `as u16` casts wrap. -/
def Function.to_bytes (f : Function) : Except RequestPacketError (List Nat) :=
  let code := f.kind.as_code
  match f with
  | .readCoils starting_address quantity
  | .readDiscreteInputs starting_address quantity =>
    if 2008 < quantity then .error .responseWillTooBig
    else .ok (code :: (be16 starting_address ++ be16 quantity))
  | .readHoldingRegisters starting_address quantity
  | .readInputRegisters starting_address quantity =>
    if 125 < quantity then .error .responseWillTooBig
    else .ok (code :: (be16 starting_address ++ be16 quantity))
  | .writeSingleCoil address v =>
    .ok (code :: (be16 address ++ [if v then 0xFF else 0x00, 0x00]))
  | .writeSingleRegister address v =>
    .ok (code :: (be16 address ++ be16 v))
  | .writeMultipleCoils starting_address vs =>
    let quantity := vs.length % 65536
    if 1976 < quantity then .error .requestTooBig
    else
      let byte_count := (quantity + 7) / 8 % 256
      .ok (code :: (be16 starting_address ++ be16 quantity ++
            byte_count :: vec_bool_to_vec_u8 vs))
  | .writeMultipleRegisters starting_address vs =>
    let quantity := vs.length % 65536
    if 123 < quantity then .error .requestTooBig
    else
      let byte_count := quantity * 2 % 256
      .ok (code :: (be16 starting_address ++ be16 quantity ++
            byte_count :: vs.flatMap be16))

/-- `Request::is_broadcasting` from `src/request.rs`. -/
def Request.is_broadcasting (r : Request) : Bool :=
  r.modbus_id == 0

/-- `Request::to_bytes` from `src/request.rs`: broadcast check, then device id,
function payload and little-endian CRC footer. The missing
`crate::crc::generate` is modelled from the spec as `crcGenerate`. -/
def Request.to_bytes (r : Request) : Except RequestPacketError (List Nat) :=
  if r.modbus_id = 0 ∧
      (r.function.kind = .readCoils ∨ r.function.kind = .readDiscreteInputs ∨
       r.function.kind = .readHoldingRegisters ∨ r.function.kind = .readInputRegisters) then
    .error .cannotBroadcast
  else
    match r.function.to_bytes with
    | .error e => .error e
    | .ok bytes =>
      let buf := r.modbus_id :: bytes
      .ok (buf ++ [crcGenerate buf % 256, crcGenerate buf / 256])

end ModbusRtu

/-! ## The earlier encoder snapshot (`src/packet.rs`)

This file is the crate's older request encoder; it performs the
checked-addition address-range validation for all address-ranged operations. -/

namespace ModbusRtu.Packet

inductive Request where
  | readCoils (slave base_address quantity : Nat)
  | readDiscreteInputs (slave base_address quantity : Nat)
  | readHoldingRegisters (slave base_address quantity : Nat)
  | readInputRegisters (slave base_address quantity : Nat)
  | writeSingleCoil (slave address : Nat) (data : Bool)
  | writeSingleRegister (slave address data : Nat)
  | writeMultipleCoils (slave base_address : Nat) (data : List Bool)
  | writeMultipleRegisters (slave base_address : Nat) (data : List Nat)
  | maskWriteRegister (slave address and_mask or_mask : Nat)
  | readWriteMultipleRegisters (slave read_base_address quantity write_base_address : Nat)
      (data : List Nat)
  deriving DecidableEq, Repr

inductive RequestError where
  | illegalBroadcasting
  | memoryAddressExceed
  | readQuantityTooBig
  | writeQuantityTooBig
  deriving DecidableEq, Repr

/-- `Request::default_packet` from `src/packet.rs`: the generic 8-byte frame
`[slave, fc, addr_hi, addr_lo, data_hi, data_lo, crc_lo, crc_hi]`. -/
def default_packet (slave function_code address data : Nat) : List Nat :=
  let packet := [slave, function_code,
    address % 65536 / 256, address % 256,
    data % 65536 / 256, data % 256]
  packet ++ crc16_modbus packet

/-- `data.len() as u16 - 1_u16` with wrapping `u16` subtraction. -/
def lenMinusOneU16 (len : Nat) : Nat :=
  (len % 65536 + 65535) % 65536

/-- `Request::to_bytes` from `src/packet.rs`. `checked_add` on `u16` returning
`None` is modelled as the sum exceeding `0xFFFF`. -/
def Request.to_bytes : Request → Except RequestError (List Nat)
  | .readCoils slave base_address quantity =>
    if slave = 0 then .error .illegalBroadcasting
    else if 255 < quantity then .error .readQuantityTooBig
    else if 0 < quantity ∧ 65535 < base_address + (quantity - 1) then
      .error .memoryAddressExceed
    else .ok (default_packet slave 0x01 base_address quantity)
  | .readDiscreteInputs slave base_address quantity =>
    if slave = 0 then .error .illegalBroadcasting
    else if 255 < quantity then .error .readQuantityTooBig
    else if 0 < quantity ∧ 65535 < base_address + (quantity - 1) then
      .error .memoryAddressExceed
    else .ok (default_packet slave 0x02 base_address quantity)
  | .readHoldingRegisters slave base_address quantity =>
    if slave = 0 then .error .illegalBroadcasting
    else if 125 < quantity then .error .readQuantityTooBig
    else if 0 < quantity ∧ 65535 < base_address + (quantity - 1) then
      .error .memoryAddressExceed
    else .ok (default_packet slave 0x03 base_address quantity)
  | .readInputRegisters slave base_address quantity =>
    if slave = 0 then .error .illegalBroadcasting
    else if 125 < quantity then .error .readQuantityTooBig
    else if 0 < quantity ∧ 65535 < base_address + (quantity - 1) then
      .error .memoryAddressExceed
    else .ok (default_packet slave 0x04 base_address quantity)
  | .writeSingleCoil slave address data =>
    .ok (default_packet slave 0x05 address (if data then 0xFF00 else 0x0000))
  | .writeSingleRegister slave address data =>
    .ok (default_packet slave 0x06 address data)
  | .writeMultipleCoils slave base_address data =>
    if 0 < data.length ∧ 65535 < base_address + lenMinusOneU16 data.length then
      .error .memoryAddressExceed
    else
      let bytes := vec_bool_to_vec_u8 data
      if 247 < bytes.length then .error .writeQuantityTooBig
      else
        let body := [slave, 0x0F] ++ be16 base_address ++ be16 (data.length % 65536) ++
          (bytes.length % 256) :: bytes
        .ok (body ++ crc16_modbus body)
  | .writeMultipleRegisters slave base_address data =>
    if 123 < data.length then .error .writeQuantityTooBig
    else if 0 < data.length ∧ 65535 < base_address + lenMinusOneU16 data.length then
      .error .memoryAddressExceed
    else
      let body := [slave, 0x10] ++ be16 base_address ++ be16 (data.length % 65536) ++
        (data.length * 2 % 256) :: data.flatMap be16
      .ok (body ++ crc16_modbus body)
  | .maskWriteRegister slave address and_mask or_mask =>
    let body := [slave, 0x16] ++ be16 address ++ be16 and_mask ++ be16 or_mask
    .ok (body ++ crc16_modbus body)
  | .readWriteMultipleRegisters slave read_base_address quantity write_base_address data =>
    if slave = 0 then .error .illegalBroadcasting
    else if 125 < quantity then .error .readQuantityTooBig
    else if 121 < data.length then .error .writeQuantityTooBig
    else if 0 < quantity ∧ 65535 < read_base_address + (quantity - 1) then
      .error .memoryAddressExceed
    else if 0 < data.length ∧ 65535 < write_base_address + lenMinusOneU16 data.length then
      .error .memoryAddressExceed
    else
      let body := [slave, 0x17] ++ be16 read_base_address ++ be16 quantity ++
        be16 write_base_address ++ be16 (data.length % 65536) ++
        (data.length * 2 % 256) :: data.flatMap be16
      .ok (body ++ crc16_modbus body)

/-- The base address and quantity (data length for the write-multiple kinds) of
an address-ranged operation: the four reads, Write Multiple Coils and Write
Multiple Registers. -/
def Request.addressRange : Request → Option (Nat × Nat)
  | .readCoils _ base_address quantity
  | .readDiscreteInputs _ base_address quantity
  | .readHoldingRegisters _ base_address quantity
  | .readInputRegisters _ base_address quantity => some (base_address, quantity)
  | .writeMultipleCoils _ base_address data => some (base_address, data.length)
  | .writeMultipleRegisters _ base_address data => some (base_address, data.length)
  | _ => none

/-- The encoder checks that precede the checked-addition overflow check:
broadcast rejection and the quantity ceiling for the reads, the 123-register
ceiling for Write Multiple Registers (Write Multiple Coils checks overflow
first). -/
def Request.preGuardsOk : Request → Bool
  | .readCoils slave _ quantity
  | .readDiscreteInputs slave _ quantity => slave != 0 && quantity ≤ 255
  | .readHoldingRegisters slave _ quantity
  | .readInputRegisters slave _ quantity => slave != 0 && quantity ≤ 125
  | .writeMultipleCoils .. => true
  | .writeMultipleRegisters _ _ data => data.length ≤ 123
  | _ => true

end ModbusRtu.Packet

/-! ## Slave side: address space and packet analyzer
(`src/slave/data_model/structure.rs`, `src/slave/data_model/mod.rs`,
`src/slave/mod.rs`, `src/common/request_form.rs`, `src/common/packet_error.rs`) -/

namespace ModbusRtu.Slave

/-- Adjacent-pair loop of `DataStructure::validate`: each address must be
strictly below its successor (lists shorter than 2 are trivially valid). The
source panics on a violation; here the violation is reported as `false`. -/
def validateAddrs : List Nat → Bool
  | [] => true
  | [_] => true
  | a :: b :: rest => a < b && validateAddrs (b :: rest)

/-- `DataStructure` from `src/slave/data_model/structure.rs` (re-exported as
`DataStruct`): a statically defined, strictly increasing address list. -/
structure DataStruct where
  addrs : List Nat
  deriving DecidableEq, Repr

/-- `DataStructure::new`: runs `validate` on the addresses; the source panics
on disorder or duplicates, modelled as `none`. -/
def DataStruct.new (addresses : List Nat) : Option DataStruct :=
  if validateAddrs addresses then some ⟨addresses⟩ else none

/-- Loop of `slice::binary_search` from the Rust standard library, as used by
`DataStructure::find`: halving search on `[left, right)`, fuelled for
termination (the window shrinks every iteration, so `l.length + 1` rounds
always suffice). -/
def binarySearchLoop (l : List Nat) (target : Nat) : Nat → Nat → Nat → Option Nat
  | _, _, 0 => none
  | left, right, fuel + 1 =>
    if left < right then
      let size := right - left
      let mid := left + size / 2
      let v := l.getD mid 0
      if v < target then binarySearchLoop l target (mid + 1) right fuel
      else if target < v then binarySearchLoop l target left mid fuel
      else some mid
    else none

/-- `DataStructure::find`: total binary search, `some index` when the address
is present, `none` otherwise. -/
def DataStruct.find (s : DataStruct) (address : Nat) : Option Nat :=
  binarySearchLoop s.addrs address 0 s.addrs.length (s.addrs.length + 1)

/-- `DataModel` from `src/slave/data_model/mod.rs`: an address structure paired
with a same-length value array (the values play no part in packet analysis). -/
structure DataModel where
  structure_ : DataStruct
  values : List Nat
  deriving DecidableEq, Repr

/-- `DataModel::is_empty`: the length `L` is zero. -/
def DataModel.is_empty (m : DataModel) : Bool :=
  m.structure_.addrs.length == 0

/-- `DataModel::find_index`: delegates to the structure's binary search. -/
def DataModel.find_index (m : DataModel) (address : Nat) : Option Nat :=
  m.structure_.find address

/-- `RequestForm` from `src/common/request_form.rs` (without the `bypass`
feature). -/
inductive RequestForm where
  | readHoldingRegisters (start_register registers_count : Nat)
  | readInputRegisters (start_register registers_count : Nat)
  | writeSingleRegister (register_address data_to_write : Nat)
  | writeMultipleRegisters (start_register : Nat) (datas_to_write : List Nat)
  deriving DecidableEq, Repr

/-- `PacketError` from `src/common/packet_error.rs`, with the exception variant
carrying the originating function code as `ModbusSlave::analyze_packet`
constructs it (`PacketError::Exeption(fc, exception)`). -/
inductive PacketError where
  | tooShort (len : Nat)
  | crcMismatch (expected received : Nat)
  | notMyId (id : Nat)
  | exeption (fc : Nat) (e : Exception)
  deriving DecidableEq, Repr

/-- `ModbusSlave` from `src/slave/mod.rs`. -/
structure ModbusSlave where
  modbus_id : Nat
  holding_registers : DataModel
  input_registers : DataModel
  deriving DecidableEq, Repr

/-- `(packet[i] as u16) << 8 | packet[i+1] as u16`: big-endian 16-bit parse of
two frame bytes. -/
def parse16 (hi lo : Nat) : Nat :=
  (hi <<< 8) ||| lo

/-- Payload-extraction loop of the Write Multiple Registers arm: word `i` is
read big-endian from `packet[7 + i*2]` and `packet[7 + i*2 + 1]` and written
to `word_buffer[i]`; an out-of-bounds buffer write is a panic, modelled as
`none`. On success the returned list equals the slice
`&word_buffer[..registers_count]` the source hands back, since exactly the
indices `0..registers_count` were written. -/
def extractWords (packet : List Nat) (bufLen : Nat) : Nat → Nat → Option (List Nat)
  | _, 0 => some []
  | i, n + 1 =>
    if i < bufLen then
      (extractWords packet bufLen (i + 1) n).map fun ws =>
        (parse16 (packet.getD (7 + i * 2) 0) (packet.getD (7 + i * 2 + 1) 0)) :: ws
    else none

/-- Read Holding/Input Registers arm (function codes `0x03` / `0x04`) of
`ModbusSlave::analyze_packet`: empty-model, length, overflow and
inclusive-range address checks. The source iterates
`for adr in start_register..=end_register`. -/
def readRegistersArm (m : DataModel) (fc : Nat) (packet : List Nat)
    (mk : Nat → Nat → RequestForm) : Except PacketError RequestForm :=
  if m.is_empty then .error (.exeption fc .illegalFunction)
  else if packet.length < 8 then .error (.exeption fc .illegalDataValue)
  else
    let start_register := parse16 (packet.getD 2 0) (packet.getD 3 0)
    let registers_count := parse16 (packet.getD 4 0) (packet.getD 5 0)
    if 65535 < start_register + registers_count then
      .error (.exeption fc .illegalDataAddress)
    else
      let end_register := start_register + registers_count
      if (List.range' start_register (end_register + 1 - start_register)).all
          (fun adr => (m.find_index adr).isSome) then
        .ok (mk start_register registers_count)
      else .error (.exeption fc .illegalDataAddress)

/-- Write Single Register arm (function code `0x06`). -/
def writeSingleArm (m : DataModel) (fc : Nat) (packet : List Nat) :
    Except PacketError RequestForm :=
  if m.is_empty then .error (.exeption fc .illegalFunction)
  else if packet.length < 8 then .error (.exeption fc .illegalDataValue)
  else
    let register_address := parse16 (packet.getD 2 0) (packet.getD 3 0)
    let data_to_write := parse16 (packet.getD 4 0) (packet.getD 5 0)
    if (m.find_index register_address).isSome then
      .ok (.writeSingleRegister register_address data_to_write)
    else .error (.exeption fc .illegalDataAddress)

/-- Write Multiple Registers arm (function code `0x10`): byte-count must equal
`registers_count` times two under saturating `u16` multiplication, the frame
must carry the declared payload, the same inclusive address range as the
reads must resolve, and the words are extracted into the caller's buffer. -/
def writeMultipleArm (m : DataModel) (fc : Nat) (packet : List Nat)
    (bufLen : Nat) : Option (Except PacketError RequestForm) :=
  if m.is_empty then some (.error (.exeption fc .illegalFunction))
  else if packet.length < 9 then some (.error (.exeption fc .illegalDataValue))
  else
    let start_register := parse16 (packet.getD 2 0) (packet.getD 3 0)
    let registers_count := parse16 (packet.getD 4 0) (packet.getD 5 0)
    let bytes_count := packet.getD 6 0
    if packet.length < 9 + bytes_count then
      some (.error (.exeption fc .illegalDataValue))
    else if bytes_count ≠ min (registers_count * 2) 65535 then
      some (.error (.exeption fc .illegalDataValue))
    else if 65535 < start_register + registers_count then
      some (.error (.exeption fc .illegalDataAddress))
    else
      let end_register := start_register + registers_count
      if (List.range' start_register (end_register + 1 - start_register)).all
          (fun adr => (m.find_index adr).isSome) then
        (extractWords packet bufLen 0 registers_count).map fun ws =>
          .ok (.writeMultipleRegisters start_register ws)
      else some (.error (.exeption fc .illegalDataAddress))

/-- `ModbusSlave::analyze_packet` from `src/slave/mod.rs` (without the `bypass`
feature): length check, CRC validation over the whole frame (the missing
`common::crc::validate` is modelled from the spec via `crcExpected` /
`crcReceived`), device-id filter, then dispatch on the function code. The
caller's scratch `word_buffer` enters as its length `bufLen`; a write past it
panics in the source and yields `none` here. -/
def analyze_packet (S : ModbusSlave) (packet : List Nat) (bufLen : Nat) :
    Option (Except PacketError RequestForm) :=
  let len := packet.length
  if len < 4 then some (.error (.tooShort len))
  else if crcExpected packet ≠ crcReceived packet then
    some (.error (.crcMismatch (crcExpected packet) (crcReceived packet)))
  else if S.modbus_id ≠ 0 ∧ S.modbus_id ≠ packet.getD 0 0 then
    some (.error (.notMyId (packet.getD 0 0)))
  else
    let fc := packet.getD 1 0
    if fc = 0x03 then
      some (readRegistersArm S.holding_registers fc packet .readHoldingRegisters)
    else if fc = 0x04 then
      some (readRegistersArm S.input_registers fc packet .readInputRegisters)
    else if fc = 0x06 then
      some (writeSingleArm S.holding_registers fc packet)
    else if fc = 0x10 then
      writeMultipleArm S.holding_registers fc packet bufLen
    else some (.error (.exeption fc .illegalFunction))

/-- `ModbusSlave::build_exception_response_packet`: the fixed 5-byte exception
frame (CRC over the first three bytes, low byte first). -/
def build_exception_response_packet (S : ModbusSlave) (fc : Nat)
    (exception : Exception) : List Nat :=
  [S.modbus_id, fc ||| 0x80, exception.as_code] ++
    crc16_modbus [S.modbus_id, fc ||| 0x80, exception.as_code]

end ModbusRtu.Slave

/-! ## Claim theorems -/

namespace ModbusRtu

/-- C2: the CRC engine (accumulator `0xFFFF`, per-byte XOR into the low byte,
8 shift/`0xA001`-XOR rounds) maps `[0x01,0x06,0x12,0x34,0x56,0x78]` to
`0xFEF2` and the empty input to `0xFFFF`; `crc16_modbus` returns the same
value low byte first. -/
theorem crc16_test_vectors :
    crc16 [0x01, 0x06, 0x12, 0x34, 0x56, 0x78] = 0xFEF2 ∧
    crc16 [] = 0xFFFF ∧
    crc16_modbus [0x01, 0x06, 0x12, 0x34, 0x56, 0x78] = [0xF2, 0xFE] := by
  decide

/-- C3: for every byte `c`, `Exception::from_code(c).as_code() = c` — the
exception tables round-trip every byte, including undefined codes; in
particular `from_code 0x05 = Acknowledge` and `from_code 0x7F =
Undefined 0x7F`. -/
theorem exception_code_round_trip (c : Nat) (h : c < 256) :
    Exception.as_code (Exception.from_code c) = c ∧
    Exception.from_code 0x05 = .acknowledge ∧
    Exception.from_code 0x7F = .undefined 0x7F := by
  revert h
  revert c
  decide

/-- C3 witness: the round trip evaluated at the byte `0x7F`. -/
theorem exception_code_round_trip_witness :
    0x7F < 256 ∧
    (Exception.as_code (Exception.from_code 0x7F) = 0x7F ∧
     Exception.from_code 0x05 = .acknowledge ∧
     Exception.from_code 0x7F = .undefined 0x7F) :=
  ⟨by decide, exception_code_round_trip 0x7F (by decide)⟩

/-- C9: the exception round trip is lossless only at the byte level —
`Undefined 0x05` encodes to `0x05`, which decodes to `Acknowledge`, a
different variant that `is_success` even counts as success. -/
theorem exception_round_trip_variant_loss :
    Exception.as_code (.undefined 0x05) = 0x05 ∧
    Exception.from_code 0x05 = .acknowledge ∧
    Exception.from_code (Exception.as_code (.undefined 0x05)) ≠ .undefined 0x05 ∧
    Response.is_success (.exception (Exception.from_code
      (Exception.as_code (.undefined 0x05)))) = true := by
  decide

/-- C1: evaluating `Response::from_bytes` (with the missing `crc::validate`
modelled from the spec) on the 9-byte frame of the claim and of the
function's own doc example. The frame itself is CRC-correct
(`crc16` of its first seven bytes is `0x99FB`, stored `FB 99`), but the
decoder hands `validate` the frame with the CRC already removed, `validate`
strips two further bytes, and the check compares `crc16` of the first five
bytes (`0xFD58`) against payload bytes `00 20` (`0x2000`) — so decoding
returns a CRC-mismatch error instead of `Ok(Value([0x0010, 0x0020]))`. -/
theorem decode_doctest_frame_rejected_by_crc :
    Response.from_bytes ⟨0x01, .readInputRegisters 0x0000 2, 100⟩
      [0x01, 0x04, 0x04, 0x00, 0x10, 0x00, 0x20, 0xFB, 0x99]
      = .error (.crcMismatch 0xFD58 0x2000) ∧
    crc16 [0x01, 0x04, 0x04, 0x00, 0x10, 0x00, 0x20] = 0x99FB := by
  decide

/-- C5 counterexample: a register-read response whose byte-count field is `4`
while the request's quantity is `1` (so byte-count differs from
`2 * quantity`) is *not* rejected: the decoder only requires byte-count to be
at least `2 * quantity`, and this frame decodes to `Ok(Value([0xAABB]))`.
(The trailing `00 00` occupy the CRC positions; under the decoder's
double-trimmed CRC check the bytes compared are `66 96`.) -/
theorem from_bytes_byte_count_not_exact :
    Response.from_bytes ⟨0x01, .readHoldingRegisters 0x0000 1, 0⟩
      [0x01, 0x03, 0x04, 0xAA, 0xBB, 0x66, 0x96, 0x00, 0x00]
      = .ok (.value [0xAABB]) ∧
    (4 : Nat) ≠ 2 * 1 := by
  decide

/-- C6 counterexample: the current encoder (`Function::to_bytes` /
`Request::to_bytes` in `src/function.rs` / `src/request.rs`) performs no
address-range check at all: Read Coils with starting address `0xFFFF` and
quantity `2` — whose inclusive upper bound `0xFFFF + 2 - 1` exceeds
`0xFFFF` — encodes to a frame instead of failing. -/
theorem request_to_bytes_no_overflow_check :
    0xFFFF < 0xFFFF + 2 - 1 ∧
    Request.to_bytes ⟨0x01, .readCoils 0xFFFF 2, 0⟩
      = .ok [0x01, 0x01, 0xFF, 0xFF, 0x00, 0x02, 0xBD, 0xEF] := by
  decide

end ModbusRtu

namespace ModbusRtu.Slave

/-- C8: constructing the address structure from `[5,5]` or `[5,3]` fails (the
construction-time validation panics in the source, modelled as `none`),
`[1,2,10]` constructs successfully, `find 2 = some 1`, `find 9 = none`, and
`find` is total: for every address it returns `some` exactly on the three
configured addresses and `none` otherwise, never failing. -/
theorem data_struct_construction_and_find :
    DataStruct.new [5, 5] = none ∧
    DataStruct.new [5, 3] = none ∧
    DataStruct.new [1, 2, 10] = some ⟨[1, 2, 10]⟩ ∧
    DataStruct.find ⟨[1, 2, 10]⟩ 2 = some 1 ∧
    DataStruct.find ⟨[1, 2, 10]⟩ 9 = none ∧
    ∀ a : Nat, (DataStruct.find ⟨[1, 2, 10]⟩ a).isSome ↔ (a = 1 ∨ a = 2 ∨ a = 10) := by
  refine ⟨by decide, by decide, by decide, by decide, by decide, ?_⟩
  intro a
  simp only [DataStruct.find, binarySearchLoop, List.length_cons, List.length_nil]
  norm_num
  split_ifs <;> simp_all <;> omega

end ModbusRtu.Slave

namespace ModbusRtu

/-- C4: for every request and every frame of length at least 5 that passes the
decoder's CRC check, a set top bit in the function-code byte makes
`Response::from_bytes` return the decoded exception immediately — before the
device-id and function-kind comparisons, so the result does not depend on the
request at all. -/
theorem from_bytes_exception_precedence (r : Request) (b : List Nat)
    (hlen : 5 ≤ b.length)
    (hcrc : crcExpected (b.take (b.length - 2)) = crcReceived (b.take (b.length - 2)))
    (hexc : b.getD 1 0 &&& 0x80 ≠ 0) :
    Response.from_bytes r b = .ok (.exception (Exception.from_code (b.getD 2 0))) := by
  unfold Response.from_bytes
  rw [if_neg (by omega), if_neg (by simp [hcrc]), if_pos hexc]

/-- C4 witness: the frame `[03, FF, 41, 00, 00]` passes the decoder's CRC check
(`crc16 [0x03] = 0x41FF`, matched little-endian by the `FF 41` bytes that the
double-trimmed check inspects), has the top bit of byte 1 set, and decodes to
`Exception(Undefined 0x41)` against a request whose id (9) and kind (Write
Single Coil) both differ from the frame's. -/
theorem from_bytes_exception_precedence_witness :
    (([0x03, 0xFF, 0x41, 0x00, 0x00] : List Nat).getD 1 0 &&& 0x80 ≠ 0) ∧
    Response.from_bytes ⟨9, .writeSingleCoil 1 true, 0⟩ [0x03, 0xFF, 0x41, 0x00, 0x00]
      = .ok (.exception (Exception.from_code 0x41)) :=
  ⟨by decide, from_bytes_exception_precedence ⟨9, .writeSingleCoil 1 true, 0⟩
    [0x03, 0xFF, 0x41, 0x00, 0x00] (by decide) (by decide) (by decide)⟩

/-- C5 (amended): for a Read Holding/Input Registers request with quantity
`q ≤ 127` and a frame that passes the length, CRC, device-id and
function-code checks, a byte-count field *below* `2 * q` yields
`Err(InvalidFormat)`, and a successful `Value` decode guarantees only
byte-count at least `2 * q` — not equality. -/
theorem from_bytes_byte_count_lower_bound (r : Request) (b : List Nat) (a q : Nat)
    (hq : q ≤ 127)
    (hlen : 5 ≤ b.length)
    (hcrc : crcExpected (b.take (b.length - 2)) = crcReceived (b.take (b.length - 2)))
    (hid : b.getD 0 0 = r.modbus_id)
    (hfun : b.getD 1 0 = 0x03 ∧ r.function = .readHoldingRegisters a q ∨
            b.getD 1 0 = 0x04 ∧ r.function = .readInputRegisters a q) :
    (((b.drop 2).take (b.length - 4)).getD 0 0 < 2 * q →
        Response.from_bytes r b = .error .invalidFormat) ∧
    ∀ vs, Response.from_bytes r b = .ok (.value vs) →
        2 * q ≤ ((b.drop 2).take (b.length - 4)).getD 0 0 := by
  have key : Response.from_bytes r b =
      if ((b.drop 2).take (b.length - 4)).getD 0 0 < 2 * q then .error .invalidFormat
      else if ((b.drop 2).take (b.length - 4)).length <
          ((b.drop 2).take (b.length - 4)).getD 0 0 + 1
        then .error .invalidFormat
      else .ok (.value ((List.range q).map fun i =>
        ((b.drop 2).take (b.length - 4)).getD (1 + i * 2) 0 * 256 +
          ((b.drop 2).take (b.length - 4)).getD (2 + i * 2) 0)) := by
    have hid' : b[0]?.getD 0 = r.modbus_id := by simpa using hid
    rcases hfun with ⟨hfc, hfn⟩ | ⟨hfc, hfn⟩ <;>
    · unfold Response.from_bytes
      rw [if_neg (by omega : ¬ b.length < 5), if_neg (not_not_intro hcrc), hfc, hfn]
      dsimp only [FunctionKind.from_code, Function.kind]
      norm_num
      rw [if_pos (by decide), if_pos hid', (by omega : q * 2 % 256 = 2 * q)]
  rw [key]
  constructor
  · intro hlt
    rw [if_pos hlt]
  · intro vs hok
    by_contra hcon
    rw [if_pos (by omega)] at hok
    exact absurd hok (by simp)

/-- C5 witness: a Read Holding Registers response for quantity 2 whose
byte-count field is 1 (below `2 * 2`) is rejected with `InvalidFormat`. -/
theorem from_bytes_byte_count_lower_bound_witness :
    ((([0x01, 0x03, 0x01, 0xAA, 0x70, 0x37, 0x00, 0x00] : List Nat).drop 2).take
        (8 - 4)).getD 0 0 < 2 * 2 ∧
    Response.from_bytes ⟨1, .readHoldingRegisters 0 2, 0⟩
      [0x01, 0x03, 0x01, 0xAA, 0x70, 0x37, 0x00, 0x00] = .error .invalidFormat :=
  ⟨by decide,
    (from_bytes_byte_count_lower_bound ⟨1, .readHoldingRegisters 0 2, 0⟩
      [0x01, 0x03, 0x01, 0xAA, 0x70, 0x37, 0x00, 0x00] 0 2
      (by decide) (by decide) (by decide) (by decide)
      (Or.inl ⟨by decide, rfl⟩)).1 (by decide)⟩

end ModbusRtu

namespace ModbusRtu.Packet

/-- C6 (amended, for the `src/packet.rs` encoder): for every address-ranged
operation (the four reads, Write Multiple Coils, Write Multiple Registers)
with quantity `1 ≤ q ≤ 65535` whose inclusive upper bound
`base + (q - 1)` exceeds `0xFFFF`, `Request::to_bytes` fails — no frame with
a wrapped-around address range is emitted — and whenever the checks that
precede the checked addition pass (non-broadcast and within the quantity
ceiling), the error is precisely `MemoryAddressExceed`. -/
theorem to_bytes_checked_address_overflow (r : Request) (base q : Nat)
    (hr : r.addressRange = some (base, q))
    (hq : 1 ≤ q) (hqle : q ≤ 65535)
    (hov : 65535 < base + (q - 1)) :
    (∃ e, r.to_bytes = .error e) ∧
    (r.preGuardsOk = true → r.to_bytes = .error .memoryAddressExceed) := by
  have hlm : lenMinusOneU16 q = q - 1 := by unfold lenMinusOneU16; omega
  cases r <;>
    simp only [Request.addressRange, Option.some.injEq, Prod.mk.injEq,
      reduceCtorEq] at hr
  case readCoils slave b qty =>
    obtain ⟨rfl, rfl⟩ := hr
    simp only [Request.to_bytes, Request.preGuardsOk]
    split_ifs with h1 h2 h3 <;> simp_all
  case readDiscreteInputs slave b qty =>
    obtain ⟨rfl, rfl⟩ := hr
    simp only [Request.to_bytes, Request.preGuardsOk]
    split_ifs with h1 h2 h3 <;> simp_all
  case readHoldingRegisters slave b qty =>
    obtain ⟨rfl, rfl⟩ := hr
    simp only [Request.to_bytes, Request.preGuardsOk]
    split_ifs with h1 h2 h3 <;> simp_all
  case readInputRegisters slave b qty =>
    obtain ⟨rfl, rfl⟩ := hr
    simp only [Request.to_bytes, Request.preGuardsOk]
    split_ifs with h1 h2 h3 <;> simp_all
  case writeMultipleCoils slave b data =>
    obtain ⟨rfl, rfl⟩ := hr
    simp only [Request.to_bytes, Request.preGuardsOk]
    rw [if_pos ⟨by omega, by omega⟩]
    exact ⟨⟨_, rfl⟩, fun _ => rfl⟩
  case writeMultipleRegisters slave b data =>
    obtain ⟨rfl, rfl⟩ := hr
    simp only [Request.to_bytes, Request.preGuardsOk]
    split_ifs with h1 h2 <;> simp_all

/-- C6 witness: Read Coils from device 1 at base `0xFFFF` with quantity 2
(upper bound `0x10000`) fails, and — the broadcast and ceiling guards
passing — fails precisely with `MemoryAddressExceed`. -/
theorem to_bytes_checked_address_overflow_witness :
    (1 : Nat) ≤ 2 ∧ 65535 < 0xFFFF + (2 - 1) ∧
    (∃ e, Request.to_bytes (.readCoils 1 0xFFFF 2) = .error e) ∧
    Request.to_bytes (.readCoils 1 0xFFFF 2) = .error .memoryAddressExceed :=
  ⟨by decide, by decide,
    (to_bytes_checked_address_overflow (.readCoils 1 0xFFFF 2) 0xFFFF 2
      rfl (by decide) (by decide) (by decide)).1,
    (to_bytes_checked_address_overflow (.readCoils 1 0xFFFF 2) 0xFFFF 2
      rfl (by decide) (by decide) (by decide)).2 (by decide)⟩

end ModbusRtu.Packet

namespace ModbusRtu.Slave

/-- C7: for every read-registers frame (function code `0x03` or `0x04`) that
passes the slave analyzer's length, CRC, id and non-empty-model checks, with
big-endian start `s` and count `c`: `u16` overflow of `s + c` yields the
`IllegalDataAddress` exception; otherwise, if every address of the inclusive
range `[s, s+c]` (one past the conventional `c`-address window) resolves,
the validated read operation with that start and count is returned, and if
any address of that range is absent the result is `IllegalDataAddress`. -/
theorem analyze_packet_read_registers (S : ModbusSlave) (packet : List Nat)
    (bufLen : Nat) (m : DataModel) (mk : Nat → Nat → RequestForm)
    (hlen : 8 ≤ packet.length)
    (hcrc : crcExpected packet = crcReceived packet)
    (hid : ¬(S.modbus_id ≠ 0 ∧ S.modbus_id ≠ packet.getD 0 0))
    (hfc : packet.getD 1 0 = 0x03 ∧ m = S.holding_registers ∧
             mk = RequestForm.readHoldingRegisters ∨
           packet.getD 1 0 = 0x04 ∧ m = S.input_registers ∧
             mk = RequestForm.readInputRegisters)
    (hne : m.is_empty = false) :
    let s := parse16 (packet.getD 2 0) (packet.getD 3 0)
    let c := parse16 (packet.getD 4 0) (packet.getD 5 0)
    (65535 < s + c →
        analyze_packet S packet bufLen =
          some (.error (.exeption (packet.getD 1 0) .illegalDataAddress))) ∧
    (s + c ≤ 65535 →
      ((∀ adr ∈ List.range' s (c + 1), (m.find_index adr).isSome) →
          analyze_packet S packet bufLen = some (.ok (mk s c))) ∧
      ((∃ adr ∈ List.range' s (c + 1), m.find_index adr = none) →
          analyze_packet S packet bufLen =
            some (.error (.exeption (packet.getD 1 0) .illegalDataAddress)))) := by
  intro s c
  have harm : ∀ fc, analyze_packet S packet bufLen =
      some (readRegistersArm m fc packet mk) →
      (65535 < s + c →
        analyze_packet S packet bufLen =
          some (.error (.exeption fc .illegalDataAddress))) ∧
      (s + c ≤ 65535 →
        ((∀ adr ∈ List.range' s (c + 1), (m.find_index adr).isSome) →
            analyze_packet S packet bufLen = some (.ok (mk s c))) ∧
        ((∃ adr ∈ List.range' s (c + 1), m.find_index adr = none) →
            analyze_packet S packet bufLen =
              some (.error (.exeption fc .illegalDataAddress)))) := by
    intro fc harr
    rw [harr]
    unfold readRegistersArm
    rw [if_neg (by simp [hne]), if_neg (by omega)]
    constructor
    · intro hov
      rw [if_pos hov]
    · intro hle
      rw [if_neg (by omega : ¬ 65535 < s + c)]
      have hcount : s + c + 1 - s = c + 1 := by omega
      constructor
      · intro hall
        rw [if_pos (by
          rw [hcount, List.all_eq_true]
          intro adr hadr
          simpa using hall adr hadr)]
      · intro hex
        rw [if_neg (by
          rw [hcount]
          obtain ⟨adr, hadr, hnone⟩ := hex
          simp only [List.all_eq_true, not_forall]
          refine ⟨adr, hadr, by simp [hnone]⟩)]
  rcases hfc with ⟨h3, rfl, rfl⟩ | ⟨h4, rfl, rfl⟩
  · rw [h3]
    refine harm 0x03 ?_
    unfold analyze_packet
    rw [if_neg (by omega), if_neg (not_not_intro hcrc), if_neg hid, if_pos h3, h3]
  · rw [h4]
    refine harm 0x04 ?_
    unfold analyze_packet
    rw [if_neg (by omega), if_neg (not_not_intro hcrc), if_neg hid,
      if_neg (by omega : ¬ packet.getD 1 0 = 0x03), if_pos h4, h4]

/-- C7 witness: a slave with id 1 and holding addresses `[0,1,2,3]` analyzing
the CRC-correct frame `[01, 03, 00, 00, 00, 02, C4, 0B]` (read 2 registers
from address 0): every address of the inclusive range `[0, 2]` resolves, so
the validated read operation is returned. -/
theorem analyze_packet_read_registers_witness :
    analyze_packet ⟨1, ⟨⟨[0, 1, 2, 3]⟩, [0, 0, 0, 0]⟩, ⟨⟨[]⟩, []⟩⟩
      [0x01, 0x03, 0x00, 0x00, 0x00, 0x02, 0xC4, 0x0B] 0
      = some (.ok (.readHoldingRegisters 0 2)) :=
  ((analyze_packet_read_registers ⟨1, ⟨⟨[0, 1, 2, 3]⟩, [0, 0, 0, 0]⟩, ⟨⟨[]⟩, []⟩⟩
      [0x01, 0x03, 0x00, 0x00, 0x00, 0x02, 0xC4, 0x0B] 0
      ⟨⟨[0, 1, 2, 3]⟩, [0, 0, 0, 0]⟩ .readHoldingRegisters
      (by decide) (by decide) (by decide)
      (Or.inl ⟨by decide, rfl, rfl⟩) (by decide)).2
    (by decide)).1 (by decide)

end ModbusRtu.Slave

namespace ModbusRtu.Slave

/-- Helper for C10: when the target index range fits inside the buffer, the
Write Multiple Registers extraction loop performs no out-of-bounds write and
produces exactly the declared number of words. -/
theorem extractWords_total (packet : List Nat) (bufLen : Nat) :
    ∀ n i, i + n ≤ bufLen →
      ∃ ws, extractWords packet bufLen i n = some ws ∧ ws.length = n := by
  intro n
  induction n with
  | zero => exact fun i _ => ⟨[], rfl, rfl⟩
  | succ k ih =>
    intro i h
    obtain ⟨ws, hws, hl⟩ := ih (i + 1) (by omega)
    unfold extractWords
    rw [if_pos (by omega), hws]
    exact ⟨_, rfl, by simp [hl]⟩

/-- Helper for C10: the read-registers arm yields either an error or a form
built from its constructor argument. -/
theorem readRegistersArm_result (m : DataModel) (fc : Nat) (packet : List Nat)
    (mk : Nat → Nat → RequestForm) :
    (∃ e, readRegistersArm m fc packet mk = .error e) ∨
    (∃ x y, readRegistersArm m fc packet mk = .ok (mk x y)) := by
  simp only [readRegistersArm]
  split_ifs <;> first | exact .inl ⟨_, rfl⟩ | exact .inr ⟨_, _, rfl⟩

/-- Helper for C10: the write-single arm yields either an error or a
`WriteSingleRegister` form. -/
theorem writeSingleArm_result (m : DataModel) (fc : Nat) (packet : List Nat) :
    (∃ e, writeSingleArm m fc packet = .error e) ∨
    (∃ x y, writeSingleArm m fc packet = .ok (.writeSingleRegister x y)) := by
  simp only [writeSingleArm]
  split_ifs <;> first | exact .inl ⟨_, rfl⟩ | exact .inr ⟨_, _, rfl⟩

/-- Helper for C10: in the Write Multiple Registers arm, every frame that
reaches the extraction loop has `registers_count ≤ 127` (the one-byte
byte-count field must equal the saturating double of the count, and a byte
is below 256), so a buffer of length at least 127 is never over-indexed and
a returned form carries exactly `registers_count` words. -/
theorem writeMultipleArm_spec (m : DataModel) (fc : Nat) (packet : List Nat)
    (bufLen : Nat) (hbytes : ∀ x ∈ packet, x < 256) (hbuf : 127 ≤ bufLen) :
    writeMultipleArm m fc packet bufLen ≠ none ∧
    ∀ s ws, writeMultipleArm m fc packet bufLen =
        some (.ok (.writeMultipleRegisters s ws)) →
      ws.length = parse16 (packet.getD 4 0) (packet.getD 5 0) := by
  simp only [writeMultipleArm]
  split_ifs with h1 h2 h3 h4 h5 h6
  · exact ⟨by simp, fun s ws h => by simp at h⟩
  · exact ⟨by simp, fun s ws h => by simp at h⟩
  · exact ⟨by simp, fun s ws h => by simp at h⟩
  · exact ⟨by simp, fun s ws h => by simp at h⟩
  · exact ⟨by simp, fun s ws h => by simp at h⟩
  · -- every check passed: the declared count fits in the buffer
    have hbc : packet.getD 6 0 < 256 := by
      have h6 : 6 < packet.length := by omega
      rw [List.getD_eq_getElem packet 0 h6]
      exact hbytes _ (List.getElem_mem h6)
    have hc : parse16 (packet.getD 4 0) (packet.getD 5 0) ≤ 127 := by
      by_contra hcon
      have : 256 ≤ min (parse16 (packet.getD 4 0) (packet.getD 5 0) * 2) 65535 :=
        le_min (by omega) (by omega)
      omega
    obtain ⟨ws, hws, hl⟩ := extractWords_total packet bufLen
      (parse16 (packet.getD 4 0) (packet.getD 5 0)) 0 (by omega)
    rw [hws]
    refine ⟨by simp, fun s ws' h => ?_⟩
    simp only [Option.map_some, Option.some.injEq] at h
    cases h
    exact hl
  · exact ⟨by simp, fun s ws h => by simp at h⟩

/-- C10: for every slave, byte frame and caller-provided word buffer of length
at least 127, `analyze_packet` never writes the buffer out of bounds
(modelled: never returns the panic marker `none`), and a returned Write
Multiple Registers operation carries exactly `registers_count` words. -/
theorem analyze_packet_word_buffer_safe (S : ModbusSlave) (packet : List Nat)
    (bufLen : Nat) (hbytes : ∀ x ∈ packet, x < 256) (hbuf : 127 ≤ bufLen) :
    analyze_packet S packet bufLen ≠ none ∧
    ∀ s ws, analyze_packet S packet bufLen =
        some (.ok (.writeMultipleRegisters s ws)) →
      ws.length = parse16 (packet.getD 4 0) (packet.getD 5 0) := by
  simp only [analyze_packet]
  split_ifs with h1 h2 h3 h4 h5 h6 h7
  · exact ⟨by simp, fun s ws h => by simp at h⟩
  · exact ⟨by simp, fun s ws h => by simp at h⟩
  · exact ⟨by simp, fun s ws h => by simp at h⟩
  · refine ⟨by simp, fun s ws h => ?_⟩
    rcases readRegistersArm_result S.holding_registers (packet.getD 1 0) packet
      .readHoldingRegisters with ⟨e, he⟩ | ⟨x, y, hxy⟩ <;> simp_all
  · refine ⟨by simp, fun s ws h => ?_⟩
    rcases readRegistersArm_result S.input_registers (packet.getD 1 0) packet
      .readInputRegisters with ⟨e, he⟩ | ⟨x, y, hxy⟩ <;> simp_all
  · refine ⟨by simp, fun s ws h => ?_⟩
    rcases writeSingleArm_result S.holding_registers (packet.getD 1 0) packet
      with ⟨e, he⟩ | ⟨x, y, hxy⟩ <;> simp_all
  · exact writeMultipleArm_spec _ _ _ _ hbytes hbuf
  · exact ⟨by simp, fun s ws h => by simp at h⟩

/-- C10 witness: a slave with holding addresses `[0, 1]` analyzing the
CRC-correct Write Multiple Registers frame
`[01, 10, 00, 00, 00, 01, 02, 00, 2A, 27, 8F]` with a 127-word buffer does
not hit the panic marker. -/
theorem analyze_packet_word_buffer_safe_witness :
    (127 : Nat) ≤ 127 ∧
    analyze_packet ⟨1, ⟨⟨[0, 1]⟩, [0, 0]⟩, ⟨⟨[]⟩, []⟩⟩
      [0x01, 0x10, 0x00, 0x00, 0x00, 0x01, 0x02, 0x00, 0x2A, 0x27, 0x8F] 127 ≠ none :=
  ⟨by decide,
    (analyze_packet_word_buffer_safe ⟨1, ⟨⟨[0, 1]⟩, [0, 0]⟩, ⟨⟨[]⟩, []⟩⟩
      [0x01, 0x10, 0x00, 0x00, 0x00, 0x01, 0x02, 0x00, 0x2A, 0x27, 0x8F] 127
      (by decide) (by decide)).1⟩

end ModbusRtu.Slave
